import Mathlib

/-!
Verification of the asset-tracker data layer: a shallow embedding of the
handler code (drizzle/Postgres relational store) as pure Lean functions
over explicit list-of-rows states.

Conventions of the embedding:
* timestamps are `Nat` (milliseconds since epoch); the current time is an
  explicit `now` argument to every handler that calls `new Date()`;
* serial primary keys are `Nat`; a freshly generated id is an explicit
  `newId` argument to every inserting handler;
* Postgres `numeric(p,s)` columns hold rationals; writing a JS number into
  such a column rounds it to `s` fractional digits (`quantQ s`), and the
  decimal-string encode/decode (`toString`/`parseFloat`) used by the
  handlers is the identity on those rounded values, so reads return the
  stored rational unchanged;
* fallible handlers return `Except String`; a thrown error is `.error`.
-/

namespace AssetTracker

inductive OfficerStatus | active | inactive | on_duty | off_duty
deriving DecidableEq, Repr

inductive VehicleStatus | active | inactive | maintenance | out_of_service
deriving DecidableEq, Repr

inductive VehicleType | sedan | suv | truck | van | motorcycle
deriving DecidableEq, Repr

inductive DriverStatus | active | inactive
deriving DecidableEq, Repr

inductive EntityType | security_officer | corporate_vehicle
deriving DecidableEq, Repr

inductive RouteStatus | active | completed | interrupted
deriving DecidableEq, Repr

inductive AssignmentStatus | active | inactive
deriving DecidableEq, Repr

/-- Row of `security_officers` (db/schema.ts `securityOfficersTable`). -/
structure OfficerRow where
  id : Nat
  name : String
  badge_number : String
  phone : Option String
  email : Option String
  status : OfficerStatus
  created_at : Nat
  updated_at : Nat
deriving DecidableEq, Repr

/-- Row of `corporate_vehicles` (db/schema.ts `corporateVehiclesTable`). -/
structure VehicleRow where
  id : Nat
  license_plate : String
  make : String
  model : String
  year : Int
  vehicle_type : VehicleType
  status : VehicleStatus
  created_at : Nat
  updated_at : Nat
deriving DecidableEq, Repr

/-- Row of `drivers` (db/schema.ts `driversTable`). -/
structure DriverRow where
  id : Nat
  name : String
  license_number : String
  phone : Option String
  email : Option String
  status : DriverStatus
  created_at : Nat
  updated_at : Nat
deriving DecidableEq, Repr

/-- Row of `location_points` (db/schema.ts `locationPointsTable`).
The numeric columns hold the rational value of the stored decimal. -/
structure LocationPointRow where
  id : Nat
  entity_type : EntityType
  entity_id : Nat
  latitude : ℚ
  longitude : ℚ
  altitude : Option ℚ
  accuracy : Option ℚ
  heading : Option ℚ
  speed : Option ℚ
  timestamp : Nat
  created_at : Nat
deriving DecidableEq, Repr

/-- Row of `routes` (db/schema.ts `routesTable`); note the table has a
`created_at` column but no `updated_at` column. -/
structure RouteRow where
  id : Nat
  entity_type : EntityType
  entity_id : Nat
  route_name : Option String
  start_time : Nat
  end_time : Option Nat
  total_distance : Option ℚ
  total_duration : Option Int
  status : RouteStatus
  created_at : Nat
deriving DecidableEq, Repr

/-- Row of `vehicle_driver_assignments`
(db/schema.ts `vehicleDriverAssignmentsTable`). -/
structure AssignmentRow where
  id : Nat
  vehicle_id : Nat
  driver_id : Nat
  assigned_at : Nat
  unassigned_at : Option Nat
  status : AssignmentStatus
deriving DecidableEq, Repr

/-- The relational store: one list of rows per table. -/
structure DB where
  securityOfficers : List OfficerRow
  corporateVehicles : List VehicleRow
  drivers : List DriverRow
  locationPoints : List LocationPointRow
  routes : List RouteRow
  vehicleDriverAssignments : List AssignmentRow
deriving DecidableEq, Repr

def emptyDB : DB := ⟨[], [], [], [], [], []⟩

/-- Rounding a rational to `s` fractional decimal digits: what writing a
JS number into a Postgres `numeric(p,s)` column does. -/
def quantQ (s : Nat) (x : ℚ) : ℚ := (round (x * (10 : ℚ) ^ s) : ℤ) / (10 : ℚ) ^ s

/-! ## Assignment Ledger (handlers/assign_driver_to_vehicle, unassign_driver_from_vehicle) -/

/-- Input schema `assignDriverToVehicleInputSchema` (schema.ts). -/
structure AssignDriverToVehicleInput where
  vehicle_id : Nat
  driver_id : Nat
deriving DecidableEq, Repr

/-- The deactivate step of `assignDriverToVehicle`: the single UPDATE that
sets `status='inactive', unassigned_at=now` on every row of
`vehicle_driver_assignments` with this `vehicle_id` and `status='active'`. -/
def deactivateActiveAssignments (vehicleId now : Nat) (db : DB) : DB :=
  { db with vehicleDriverAssignments := db.vehicleDriverAssignments.map (fun a =>
      if a.vehicle_id = vehicleId ∧ a.status = AssignmentStatus.active then
        { a with status := AssignmentStatus.inactive, unassigned_at := some now }
      else a) }

/-- The insert step of `assignDriverToVehicle`: INSERT a fresh row with
`status='active'`, `assigned_at=now` (column default), `unassigned_at=null`. -/
def insertAssignment (input : AssignDriverToVehicleInput) (now newId : Nat) (db : DB) :
    DB × AssignmentRow :=
  let row : AssignmentRow :=
    { id := newId, vehicle_id := input.vehicle_id, driver_id := input.driver_id,
      assigned_at := now, unassigned_at := none, status := AssignmentStatus.active }
  ({ db with vehicleDriverAssignments := db.vehicleDriverAssignments ++ [row] }, row)

/-- `assignDriverToVehicle` with its two store-write steps abstracted as
fallible operations, mirroring the `await` sequencing of the handler: the
two existence SELECTs and thrown `not found` errors, then the deactivate
UPDATE, then (only if that succeeded) the INSERT.  The handler's
catch-block logs and rethrows, so errors propagate unchanged. -/
def assignDriverToVehicleSteps (deact : DB → Except String DB)
    (ins : DB → Except String (DB × AssignmentRow))
    (db : DB) (input : AssignDriverToVehicleInput) : Except String (DB × AssignmentRow) :=
  match db.corporateVehicles.find? (fun v => decide (v.id = input.vehicle_id)) with
  | none => .error ("Vehicle with ID " ++ toString input.vehicle_id ++ " not found")
  | some _ =>
    match db.drivers.find? (fun d => decide (d.id = input.driver_id)) with
    | none => .error ("Driver with ID " ++ toString input.driver_id ++ " not found")
    | some _ =>
      match deact db with
      | .error e => .error e
      | .ok db1 => ins db1

/-- `assignDriverToVehicle` (src/unnamed/part_000): the concrete handler,
with both store writes succeeding as pure state updates. -/
def assignDriverToVehicle (db : DB) (now newId : Nat) (input : AssignDriverToVehicleInput) :
    Except String (DB × AssignmentRow) :=
  assignDriverToVehicleSteps
    (fun d => .ok (deactivateActiveAssignments input.vehicle_id now d))
    (fun d => .ok (insertAssignment input now newId d)) db input

/-- `unassignDriverFromVehicle` (handlers/unassign_driver_from_vehicle.ts):
SELECT the active assignments for the vehicle; if none, return `(db, none)`
with no mutation; else UPDATE (by the first active row's id) to
`status='inactive', unassigned_at=now` and return the first updated row. -/
def unassignDriverFromVehicle (db : DB) (now vehicleId : Nat) : DB × Option AssignmentRow :=
  match db.vehicleDriverAssignments.filter
      (fun a => decide (a.vehicle_id = vehicleId ∧ a.status = AssignmentStatus.active)) with
  | [] => (db, none)
  | a :: _ =>
    let newAssignments := db.vehicleDriverAssignments.map (fun b =>
      if b.id = a.id then { b with status := AssignmentStatus.inactive, unassigned_at := some now }
      else b)
    let updatedRows := (db.vehicleDriverAssignments.filter (fun b => decide (b.id = a.id))).map
      (fun b => { b with status := AssignmentStatus.inactive, unassigned_at := some now })
    ({ db with vehicleDriverAssignments := newAssignments }, updatedRows.head?)

/-- The rows of `vehicle_driver_assignments` with this `vehicle_id` and
`status='active'`: the subject of the at-most-one-active invariant. -/
def activeAssignmentsFor (db : DB) (v : Nat) : List AssignmentRow :=
  db.vehicleDriverAssignments.filter
    (fun a => decide (a.vehicle_id = v ∧ a.status = AssignmentStatus.active))

/-! ### List helper lemmas -/

theorem filter_map_of_false {α : Type} (f : α → α) (p : α → Bool) (l : List α)
    (h : ∀ a ∈ l, p (f a) = false) : (l.map f).filter p = [] := by
  induction l with
  | nil => rfl
  | cons a l ih =>
    simp only [List.map_cons, List.filter_cons, h a (by simp)]
    exact ih (fun a ha => h a (by simp [ha]))

theorem filter_map_congr {α : Type} (f : α → α) (p : α → Bool) (l : List α)
    (h : ∀ a ∈ l, p (f a) = p a ∧ (p a = true → f a = a)) :
    (l.map f).filter p = l.filter p := by
  induction l with
  | nil => rfl
  | cons a l ih =>
    have ha := h a (by simp)
    have ih' := ih (fun a ha => h a (by simp [ha]))
    by_cases hp : p a = true
    · simp only [List.map_cons, List.filter_cons, ha.1, hp, ha.2 hp, if_true, ih']
    · have hp' : p a = false := by simpa using hp
      simp only [List.map_cons, List.filter_cons, ha.1, hp', if_false, ih',
        Bool.false_eq_true]

theorem length_filter_map_le {α : Type} (f : α → α) (p : α → Bool) (l : List α)
    (h : ∀ a ∈ l, p (f a) = true → f a = a) :
    ((l.map f).filter p).length ≤ (l.filter p).length := by
  induction l with
  | nil => simp
  | cons a l ih =>
    have ih' := ih (fun a ha => h a (by simp [ha]))
    by_cases hf : p (f a) = true
    · have hfa : f a = a := h a (by simp) hf
      rw [List.map_cons, List.filter_cons, List.filter_cons, hfa]
      rw [hfa] at hf
      simp only [hf, if_true, List.length_cons]
      omega
    · have hf' : p (f a) = false := by simpa using hf
      rw [List.map_cons, List.filter_cons, List.filter_cons, hf']
      simp only [Bool.false_eq_true, if_false]
      by_cases hp : p a = true
      · simp only [hp, if_true, List.length_cons]; omega
      · have hp' : p a = false := by simpa using hp
        simp only [hp', Bool.false_eq_true, if_false]; exact ih'

/-- Rows sharing an id with a member `a` of a list whose ids are nodup
form exactly `[a]`. -/
theorem filter_id_eq_singleton (l : List AssignmentRow) (a : AssignmentRow)
    (hids : (l.map (fun b => b.id)).Nodup) (ha : a ∈ l) :
    l.filter (fun b => decide (b.id = a.id)) = [a] := by
  induction l with
  | nil => cases ha
  | cons c l ih =>
    simp only [List.map_cons, List.nodup_cons, List.mem_map] at hids
    rcases List.mem_cons.mp ha with rfl | ha'
    · have hnil : l.filter (fun b => decide (b.id = a.id)) = [] := by
        rw [List.filter_eq_nil_iff]
        intro b hb
        simp only [decide_eq_true_eq]
        exact fun hEq => hids.1 ⟨b, hb, hEq⟩
      simp [List.filter_cons, hnil]
    · have hne : ¬(c.id = a.id) := fun hEq => hids.1 ⟨a, ha', (hEq.symm : a.id = c.id)⟩
      simp [List.filter_cons, hne, ih hids.2 ha']

theorem deact_map_not_active (v now w : Nat) (l : List AssignmentRow) (b : AssignmentRow)
    (hb : b ∈ l.map (fun a =>
      if a.vehicle_id = v ∧ a.status = AssignmentStatus.active then
        { a with status := AssignmentStatus.inactive, unassigned_at := some now }
      else a)) :
    (decide (b.vehicle_id = w ∧ b.status = AssignmentStatus.active) = true) →
      b ∈ l ∧ b.vehicle_id ≠ v := by
  intro hP
  simp only [decide_eq_true_eq] at hP
  obtain ⟨a, ha, rfl⟩ := List.mem_map.mp hb
  by_cases hc : a.vehicle_id = v ∧ a.status = AssignmentStatus.active
  · simp only [hc, if_true] at hP
    exact absurd hP.2 (by simp)
  · simp only [hc, if_false] at hP ⊢
    refine ⟨ha, ?_⟩
    intro hv
    exact hc ⟨hv, hP.2⟩

theorem assign_filter_self (l : List AssignmentRow) (v now newId did : Nat) :
    ((l.map (fun a : AssignmentRow =>
        if a.vehicle_id = v ∧ a.status = AssignmentStatus.active then
          { a with status := AssignmentStatus.inactive, unassigned_at := some now }
        else a)) ++
      [({ id := newId, vehicle_id := v, driver_id := did, assigned_at := now,
          unassigned_at := none, status := AssignmentStatus.active } : AssignmentRow)]).filter
      (fun a => decide (a.vehicle_id = v ∧ a.status = AssignmentStatus.active)) =
    [{ id := newId, vehicle_id := v, driver_id := did, assigned_at := now,
       unassigned_at := none, status := AssignmentStatus.active }] := by
  rw [List.filter_append, filter_map_of_false]
  · simp
  · intro a _
    by_cases hc : a.vehicle_id = v ∧ a.status = AssignmentStatus.active
    · rw [if_pos hc]; simp
    · rw [if_neg hc]; exact decide_eq_false hc

theorem assign_filter_other (l : List AssignmentRow) (v now newId did w : Nat)
    (hw : ¬ w = v) :
    ((l.map (fun a : AssignmentRow =>
        if a.vehicle_id = v ∧ a.status = AssignmentStatus.active then
          { a with status := AssignmentStatus.inactive, unassigned_at := some now }
        else a)) ++
      [({ id := newId, vehicle_id := v, driver_id := did, assigned_at := now,
          unassigned_at := none, status := AssignmentStatus.active } : AssignmentRow)]).filter
      (fun a => decide (a.vehicle_id = w ∧ a.status = AssignmentStatus.active)) =
    l.filter (fun a => decide (a.vehicle_id = w ∧ a.status = AssignmentStatus.active)) := by
  rw [List.filter_append]
  have hlast : List.filter
      (fun a : AssignmentRow => decide (a.vehicle_id = w ∧ a.status = AssignmentStatus.active))
      [({ id := newId, vehicle_id := v, driver_id := did, assigned_at := now,
          unassigned_at := none, status := AssignmentStatus.active } : AssignmentRow)] = [] := by
    simp only [List.filter_cons, List.filter_nil]
    rw [if_neg]
    simp only [decide_eq_true_eq, not_and]
    intro hv
    exact absurd hv.symm hw
  rw [hlast, List.append_nil]
  apply filter_map_congr
  intro a _
  by_cases hc : a.vehicle_id = v ∧ a.status = AssignmentStatus.active
  · rw [if_pos hc]
    constructor
    · rw [decide_eq_false, decide_eq_false]
      · rintro ⟨hv, -⟩
        exact hw ((hc.1 ▸ hv : v = w)).symm
      · rintro ⟨hv, -⟩
        exact hw ((hc.1 ▸ hv : v = w)).symm
    · intro hP
      simp only [decide_eq_true_eq] at hP
      exact absurd (hc.1.symm.trans hP.1).symm hw
  · rw [if_neg hc]
    exact ⟨rfl, fun _ => rfl⟩

theorem unassign_keeps_invariant (e : DB) (n v w : Nat)
    (hw : (activeAssignmentsFor e w).length ≤ 1) :
    (activeAssignmentsFor (unassignDriverFromVehicle e n v).1 w).length ≤ 1 := by
  unfold unassignDriverFromVehicle
  split
  · exact hw
  case _ a rest heq =>
    simp only [activeAssignmentsFor] at hw ⊢
    refine le_trans (length_filter_map_le _ _ _ ?_) hw
    intro b _ hb
    by_cases hid : b.id = a.id
    · rw [if_pos hid] at hb
      simp at hb
    · rw [if_neg hid]

/-- C1: starting from any state where every vehicle has at most one active
assignment row, a successful `assignDriverToVehicle(v, d2)` leaves exactly
one active row for `v` — the freshly inserted one, referencing `d2` with
`unassigned_at` null — every previously active row for `v` is now inactive
with `unassigned_at` set, and the at-most-one-active-per-vehicle invariant
is preserved by assign and by unassign. -/
theorem assign_preserves_single_active
    (db db' : DB) (now newId : Nat) (input : AssignDriverToVehicleInput) (row : AssignmentRow)
    (hinv : ∀ w, (activeAssignmentsFor db w).length ≤ 1)
    (h : assignDriverToVehicle db now newId input = .ok (db', row)) :
    row = { id := newId, vehicle_id := input.vehicle_id, driver_id := input.driver_id,
            assigned_at := now, unassigned_at := none, status := AssignmentStatus.active } ∧
    activeAssignmentsFor db' input.vehicle_id = [row] ∧
    (∀ a ∈ db.vehicleDriverAssignments,
        a.vehicle_id = input.vehicle_id → a.status = AssignmentStatus.active →
        { a with status := AssignmentStatus.inactive, unassigned_at := some now }
          ∈ db'.vehicleDriverAssignments) ∧
    (∀ w, (activeAssignmentsFor db' w).length ≤ 1) ∧
    (∀ (e : DB) (n v w : Nat), (activeAssignmentsFor e w).length ≤ 1 →
        (activeAssignmentsFor (unassignDriverFromVehicle e n v).1 w).length ≤ 1) := by
  unfold assignDriverToVehicle assignDriverToVehicleSteps at h
  split at h
  · exact absurd h (by simp)
  split at h
  · exact absurd h (by simp)
  simp only [insertAssignment, deactivateActiveAssignments, Except.ok.injEq,
    Prod.mk.injEq] at h
  obtain ⟨hdb, hrow⟩ := h
  subst hdb
  subst hrow
  refine ⟨rfl, ?_, ?_, ?_, fun e n v w hw => unassign_keeps_invariant e n v w hw⟩
  · simp only [activeAssignmentsFor]
    exact assign_filter_self db.vehicleDriverAssignments input.vehicle_id now newId
      input.driver_id
  · intro a ha hv hs
    refine List.mem_append_left _ (List.mem_map.mpr ⟨a, ha, ?_⟩)
    rw [if_pos ⟨hv, hs⟩]
  · intro w
    by_cases hw : w = input.vehicle_id
    · subst hw
      simp only [activeAssignmentsFor]
      rw [assign_filter_self]
      simp
    · simp only [activeAssignmentsFor]
      rw [assign_filter_other db.vehicleDriverAssignments input.vehicle_id now newId
        input.driver_id w hw]
      exact hinv w

/-- The store a caller observes after an `assignDriverToVehicle` call: the
new state on success, the old state when the handler threw. -/
def commitAssign (db : DB) (now newId : Nat) (input : AssignDriverToVehicleInput) : DB :=
  match assignDriverToVehicle db now newId input with
  | .ok (db', _) => db'
  | .error _ => db

/-- C6: `assignDriverToVehicle` fails with the not-found error whenever the
vehicle id or the driver id references no existing row, and on that failure
the store is unchanged; and in the step-abstracted handler, if the
deactivate step fails the result is that error and is independent of the
insert step — the insert never runs. -/
theorem assign_error_paths (db : DB) (now newId : Nat) (input : AssignDriverToVehicleInput) :
    ((∀ v ∈ db.corporateVehicles, ¬ v.id = input.vehicle_id) →
      assignDriverToVehicle db now newId input =
        .error ("Vehicle with ID " ++ toString input.vehicle_id ++ " not found") ∧
      commitAssign db now newId input = db) ∧
    ((∃ v ∈ db.corporateVehicles, v.id = input.vehicle_id) →
      (∀ d ∈ db.drivers, ¬ d.id = input.driver_id) →
      assignDriverToVehicle db now newId input =
        .error ("Driver with ID " ++ toString input.driver_id ++ " not found") ∧
      commitAssign db now newId input = db) ∧
    (∀ (deact : DB → Except String DB) (ins ins' : DB → Except String (DB × AssignmentRow))
        (e : String), deact db = .error e →
      assignDriverToVehicleSteps deact ins db input =
        assignDriverToVehicleSteps deact ins' db input ∧
      ((∃ v ∈ db.corporateVehicles, v.id = input.vehicle_id) →
        (∃ d ∈ db.drivers, d.id = input.driver_id) →
        assignDriverToVehicleSteps deact ins db input = .error e)) := by
  have hfindv : ∀ (h : ∃ v ∈ db.corporateVehicles, v.id = input.vehicle_id),
      ∃ vrow, db.corporateVehicles.find? (fun v => decide (v.id = input.vehicle_id)) =
        some vrow := by
    intro h
    obtain ⟨v, hv, hid⟩ := h
    rcases hfind : db.corporateVehicles.find? (fun v => decide (v.id = input.vehicle_id)) with
      _ | vrow
    · rw [List.find?_eq_none] at hfind
      exact absurd (by simpa using hid) (hfind v hv)
    · exact ⟨vrow, hfind⟩
  have hfindd : ∀ (h : ∃ d ∈ db.drivers, d.id = input.driver_id),
      ∃ drow, db.drivers.find? (fun d => decide (d.id = input.driver_id)) = some drow := by
    intro h
    obtain ⟨d, hd, hid⟩ := h
    rcases hfind : db.drivers.find? (fun d => decide (d.id = input.driver_id)) with _ | drow
    · rw [List.find?_eq_none] at hfind
      exact absurd (by simpa using hid) (hfind d hd)
    · exact ⟨drow, hfind⟩
  refine ⟨?_, ?_, ?_⟩
  · intro hnone
    have hfn : db.corporateVehicles.find? (fun v => decide (v.id = input.vehicle_id)) = none := by
      rw [List.find?_eq_none]
      intro v hv
      simpa using hnone v hv
    have h1 : assignDriverToVehicle db now newId input =
        .error ("Vehicle with ID " ++ toString input.vehicle_id ++ " not found") := by
      unfold assignDriverToVehicle assignDriverToVehicleSteps
      rw [hfn]
    exact ⟨h1, by unfold commitAssign; rw [h1]⟩
  · intro hsome hnone
    obtain ⟨vrow, hfv⟩ := hfindv hsome
    have hfn : db.drivers.find? (fun d => decide (d.id = input.driver_id)) = none := by
      rw [List.find?_eq_none]
      intro d hd
      simpa using hnone d hd
    have h1 : assignDriverToVehicle db now newId input =
        .error ("Driver with ID " ++ toString input.driver_id ++ " not found") := by
      unfold assignDriverToVehicle assignDriverToVehicleSteps
      rw [hfv, hfn]
    exact ⟨h1, by unfold commitAssign; rw [h1]⟩
  · intro deact ins ins' e hde
    constructor
    · unfold assignDriverToVehicleSteps
      rcases hfv : db.corporateVehicles.find? (fun v => decide (v.id = input.vehicle_id)) with
        _ | vrow
      · rw [hfv]
      rcases hfd : db.drivers.find? (fun d => decide (d.id = input.driver_id)) with _ | drow
      · rw [hfv, hfd]
      rw [hfv, hfd, hde]
    · intro hv hd
      obtain ⟨vrow, hfv⟩ := hfindv hv
      obtain ⟨drow, hfd⟩ := hfindd hd
      unfold assignDriverToVehicleSteps
      rw [hfv, hfd, hde]

/-- C7: `unassignDriverFromVehicle(v)` on a vehicle with no active
assignment returns null and mutates nothing; with exactly one active row
(the invariant situation) it marks that row inactive with
`unassigned_at=now`, rewrites only that row in the assignments table, and
returns the updated row.  Assignment ids are nodup (serial primary key). -/
theorem unassign_null_or_updates (db : DB) (now v : Nat)
    (hids : (db.vehicleDriverAssignments.map (fun a => a.id)).Nodup) :
    (activeAssignmentsFor db v = [] → unassignDriverFromVehicle db now v = (db, none)) ∧
    (∀ a, activeAssignmentsFor db v = [a] →
      (unassignDriverFromVehicle db now v).2 =
        some { a with status := AssignmentStatus.inactive, unassigned_at := some now } ∧
      (unassignDriverFromVehicle db now v).1.vehicleDriverAssignments =
        db.vehicleDriverAssignments.map (fun b =>
          if b.id = a.id then
            { b with status := AssignmentStatus.inactive, unassigned_at := some now }
          else b) ∧
      (unassignDriverFromVehicle db now v).1.securityOfficers = db.securityOfficers ∧
      (unassignDriverFromVehicle db now v).1.corporateVehicles = db.corporateVehicles ∧
      (unassignDriverFromVehicle db now v).1.drivers = db.drivers ∧
      (unassignDriverFromVehicle db now v).1.locationPoints = db.locationPoints ∧
      (unassignDriverFromVehicle db now v).1.routes = db.routes) := by
  constructor
  · intro hnil
    unfold unassignDriverFromVehicle
    simp only [activeAssignmentsFor] at hnil
    rw [hnil]
  · intro a hone
    simp only [activeAssignmentsFor] at hone
    have ha : a ∈ db.vehicleDriverAssignments := by
      have : a ∈ db.vehicleDriverAssignments.filter
          (fun b => decide (b.vehicle_id = v ∧ b.status = AssignmentStatus.active)) := by
        rw [hone]; exact List.mem_singleton_self a
      exact List.mem_of_mem_filter this
    have hfid := filter_id_eq_singleton db.vehicleDriverAssignments a hids ha
    unfold unassignDriverFromVehicle
    rw [hone]
    dsimp only
    rw [hfid]
    exact ⟨rfl, rfl, rfl, rfl, rfl, rfl, rfl⟩

/-! ### Concrete demonstration stores -/

def demoVehicle : VehicleRow :=
  { id := 1, license_plate := "PLT1", make := "Make", model := "Model", year := 2020,
    vehicle_type := VehicleType.sedan, status := VehicleStatus.active,
    created_at := 0, updated_at := 0 }

def demoDriver : DriverRow :=
  { id := 2, name := "Dana", license_number := "LN1", phone := none, email := none,
    status := DriverStatus.active, created_at := 0, updated_at := 0 }

def demoDB : DB :=
  { emptyDB with corporateVehicles := [demoVehicle], drivers := [demoDriver] }

def vehicleOnlyDB : DB := { emptyDB with corporateVehicles := [demoVehicle] }

def demoAssignRow : AssignmentRow :=
  { id := 10, vehicle_id := 1, driver_id := 2, assigned_at := 5, unassigned_at := none,
    status := AssignmentStatus.active }

def demoDBAfter : DB := { demoDB with vehicleDriverAssignments := [demoAssignRow] }

def demoActiveAssignment : AssignmentRow :=
  { id := 7, vehicle_id := 1, driver_id := 2, assigned_at := 3, unassigned_at := none,
    status := AssignmentStatus.active }

def assignedDB : DB := { demoDB with vehicleDriverAssignments := [demoActiveAssignment] }

def demoUnassignedRow : AssignmentRow :=
  { demoActiveAssignment with status := AssignmentStatus.inactive, unassigned_at := some 9 }

def failingDeact : DB → Except String DB := fun _ => .error "deactivate failed"

def insA : DB → Except String (DB × AssignmentRow) :=
  fun d => .ok (insertAssignment ⟨1, 2⟩ 0 0 d)

def insB : DB → Except String (DB × AssignmentRow) := fun _ => .error "other insert"

/-- Witness for C1: assigning driver 2 to vehicle 1 on a store with no
assignments leaves that one fresh row active. -/
theorem assign_preserves_single_active_witness :
    activeAssignmentsFor demoDBAfter 1 = [demoAssignRow] :=
  (assign_preserves_single_active demoDB demoDBAfter 5 10 ⟨1, 2⟩ demoAssignRow
    (fun w => by simp [activeAssignmentsFor, demoDB, emptyDB])
    rfl).2.1

/-- Witness for C6 at concrete stores: missing vehicle, missing driver,
and a failing deactivate step. -/
theorem assign_error_paths_witness :
    assignDriverToVehicle emptyDB 0 0 ⟨1, 2⟩ =
      .error ("Vehicle with ID " ++ toString (1 : Nat) ++ " not found") ∧
    commitAssign emptyDB 0 0 ⟨1, 2⟩ = emptyDB ∧
    assignDriverToVehicle vehicleOnlyDB 0 0 ⟨1, 2⟩ =
      .error ("Driver with ID " ++ toString (2 : Nat) ++ " not found") ∧
    assignDriverToVehicleSteps failingDeact insA demoDB ⟨1, 2⟩ =
      assignDriverToVehicleSteps failingDeact insB demoDB ⟨1, 2⟩ ∧
    assignDriverToVehicleSteps failingDeact insA demoDB ⟨1, 2⟩ =
      .error "deactivate failed" :=
  ⟨((assign_error_paths emptyDB 0 0 ⟨1, 2⟩).1 (by intro v hv; cases hv)).1,
   ((assign_error_paths emptyDB 0 0 ⟨1, 2⟩).1 (by intro v hv; cases hv)).2,
   ((assign_error_paths vehicleOnlyDB 0 0 ⟨1, 2⟩).2.1
      ⟨demoVehicle, by decide, by decide⟩ (by decide)).1,
   ((assign_error_paths demoDB 0 0 ⟨1, 2⟩).2.2 failingDeact insA insB
      "deactivate failed" rfl).1,
   ((assign_error_paths demoDB 0 0 ⟨1, 2⟩).2.2 failingDeact insA insB
      "deactivate failed" rfl).2
      ⟨demoVehicle, by decide, by decide⟩ ⟨demoDriver, by decide, by decide⟩⟩

/-- Witness for C7: no active assignment gives `(db, none)`; one active
assignment is returned deactivated. -/
theorem unassign_null_or_updates_witness :
    unassignDriverFromVehicle emptyDB 9 1 = (emptyDB, none) ∧
    (unassignDriverFromVehicle assignedDB 9 1).2 = some demoUnassignedRow :=
  ⟨(unassign_null_or_updates emptyDB 9 1 (by decide)).1 (by decide),
   ((unassign_null_or_updates assignedDB 9 1 (by decide)).2 demoActiveAssignment
      (by decide)).1⟩

/-! ## Route Ledger update (handlers/update_route.ts) -/

/-- Input schema `updateRouteInputSchema` (schema.ts): each patch field
distinguishes absent (`none`) from present (`some v`); for the nullable
fields a present explicit null is `some none`. -/
structure UpdateRouteInput where
  id : Nat
  route_name : Option (Option String)
  end_time : Option (Option Nat)
  total_distance : Option (Option ℚ)
  total_duration : Option (Option Int)
  status : Option RouteStatus
deriving DecidableEq, Repr

/-- The SET clause of `updateRoute`'s UPDATE applied to one row: only the
fields present in the patch change (`total_distance` goes through
`toString` into `numeric(8,3)`, i.e. `quantQ 3`).  The handler also puts a
stray `updated_at` key into its update object, but `routesTable` has no
`updated_at` column, so the SET clause — built from the table's columns —
drops it and no column is affected by it (the handler's own tests update
routes successfully and see `created_at` unchanged). -/
def applyRoutePatch (input : UpdateRouteInput) (r : RouteRow) : RouteRow :=
  { r with
    route_name := match input.route_name with | none => r.route_name | some v => v
    end_time := match input.end_time with | none => r.end_time | some v => v
    total_distance := match input.total_distance with
      | none => r.total_distance
      | some v => v.map (quantQ 3)
    total_duration := match input.total_duration with | none => r.total_duration | some v => v
    status := match input.status with | none => r.status | some s => s }

/-- `updateRoute` (handlers/update_route.ts): one UPDATE of every row with
`id = input.id` RETURNING the updated rows; throws the not-found error when
none matched, else returns the first updated row (its `total_distance`
parsed back to a number, the identity on the stored rational). -/
def updateRoute (db : DB) (input : UpdateRouteInput) : Except String (DB × RouteRow) :=
  let updated := db.routes.map (fun r => if r.id = input.id then applyRoutePatch input r else r)
  match (db.routes.filter (fun r => decide (r.id = input.id))).map (applyRoutePatch input) with
  | [] => .error ("Route with id " ++ toString input.id ++ " not found")
  | r :: _ => .ok ({ db with routes := updated }, r)

/-- C3: a successful `updateRoute` changes exactly the fields present in
the patch (a present null writes null into the nullable fields), leaves
every omitted field, the identifying/immutable fields (`id`, `entity_type`,
`entity_id`, `start_time`, `created_at` — Route has no `updated_at`
column), all rows with a different id, and all other tables unchanged. -/
theorem updateRoute_frame (db db' : DB) (input : UpdateRouteInput) (ret : RouteRow)
    (h : updateRoute db input = .ok (db', ret)) :
    db'.securityOfficers = db.securityOfficers ∧
    db'.corporateVehicles = db.corporateVehicles ∧
    db'.drivers = db.drivers ∧
    db'.locationPoints = db.locationPoints ∧
    db'.vehicleDriverAssignments = db.vehicleDriverAssignments ∧
    db'.routes = db.routes.map
      (fun r => if r.id = input.id then applyRoutePatch input r else r) ∧
    (∀ r ∈ db.routes, ¬ r.id = input.id → r ∈ db'.routes) ∧
    (∀ r ∈ db.routes, r.id = input.id → applyRoutePatch input r ∈ db'.routes) ∧
    (∀ r : RouteRow,
      (applyRoutePatch input r).id = r.id ∧
      (applyRoutePatch input r).entity_type = r.entity_type ∧
      (applyRoutePatch input r).entity_id = r.entity_id ∧
      (applyRoutePatch input r).start_time = r.start_time ∧
      (applyRoutePatch input r).created_at = r.created_at ∧
      (input.route_name = none → (applyRoutePatch input r).route_name = r.route_name) ∧
      (∀ v, input.route_name = some v → (applyRoutePatch input r).route_name = v) ∧
      (input.end_time = none → (applyRoutePatch input r).end_time = r.end_time) ∧
      (∀ v, input.end_time = some v → (applyRoutePatch input r).end_time = v) ∧
      (input.total_distance = none →
        (applyRoutePatch input r).total_distance = r.total_distance) ∧
      (input.total_distance = some none → (applyRoutePatch input r).total_distance = none) ∧
      (∀ q, input.total_distance = some (some q) →
        (applyRoutePatch input r).total_distance = some (quantQ 3 q)) ∧
      (input.total_duration = none →
        (applyRoutePatch input r).total_duration = r.total_duration) ∧
      (∀ v, input.total_duration = some v → (applyRoutePatch input r).total_duration = v) ∧
      (input.status = none → (applyRoutePatch input r).status = r.status) ∧
      (∀ s, input.status = some s → (applyRoutePatch input r).status = s)) := by
  unfold updateRoute at h
  split at h
  · exact absurd h (by simp)
  case _ r rest heq =>
    simp only [Except.ok.injEq, Prod.mk.injEq] at h
    obtain ⟨hdb, -⟩ := h
    subst hdb
    refine ⟨rfl, rfl, rfl, rfl, rfl, rfl, ?_, ?_, ?_⟩
    · intro r hr hne
      exact List.mem_map.mpr ⟨r, hr, by rw [if_neg hne]⟩
    · intro r hr hid
      exact List.mem_map.mpr ⟨r, hr, by rw [if_pos hid]⟩
    · intro r
      refine ⟨rfl, rfl, rfl, rfl, rfl, ?_, ?_, ?_, ?_, ?_, ?_, ?_, ?_, ?_, ?_, ?_⟩
      all_goals
        simp only [applyRoutePatch]
      · intro hn; rw [hn]
      · intro v hv; rw [hv]
      · intro hn; rw [hn]
      · intro v hv; rw [hv]
      · intro hn; rw [hn]
      · intro hv; rw [hv]; rfl
      · intro q hq; rw [hq]; rfl
      · intro hn; rw [hn]
      · intro v hv; rw [hv]
      · intro hn; rw [hn]
      · intro s hs; rw [hs]

def demoRoute : RouteRow :=
  { id := 4, entity_type := EntityType.security_officer, entity_id := 9,
    route_name := some "Original", start_time := 100, end_time := none,
    total_distance := none, total_duration := none, status := RouteStatus.active,
    created_at := 50 }

def routeDB : DB := { emptyDB with routes := [demoRoute] }

def demoPatch : UpdateRouteInput :=
  { id := 4, route_name := some (some "Updated"), end_time := some (some 200),
    total_distance := some (some (51 / 2 : ℚ)), total_duration := some (some 540),
    status := some RouteStatus.completed }

def routeDBAfter : DB := { emptyDB with routes := [applyRoutePatch demoPatch demoRoute] }

/-- Witness for C3 at a concrete store and full patch. -/
theorem updateRoute_frame_witness :
    routeDBAfter.routes = routeDB.routes.map
      (fun r => if r.id = demoPatch.id then applyRoutePatch demoPatch r else r) ∧
    applyRoutePatch demoPatch demoRoute ∈ routeDBAfter.routes :=
  ⟨(updateRoute_frame routeDB routeDBAfter demoPatch
      (applyRoutePatch demoPatch demoRoute) rfl).2.2.2.2.2.1,
   (updateRoute_frame routeDB routeDBAfter demoPatch
      (applyRoutePatch demoPatch demoRoute) rfl).2.2.2.2.2.2.2.1 demoRoute
      (by decide) rfl⟩

/-! ## Location Ledger history (schema.ts `getLocationHistoryInputSchema`,
handlers/get_location_history.ts) -/

/-- The raw shape of a `getLocationHistory` request before validation. -/
structure GetLocationHistoryInput where
  entity_type : EntityType
  entity_id : Nat
  start_date : Option Nat
  end_date : Option Nat
  limit : Option Int
deriving DecidableEq, Repr

/-- `getLocationHistoryInputSchema` (schema.ts):
`limit: z.number().int().min(1).max(1000).optional()` — a present limit
outside [1,1000] fails validation with an error; it is not clamped. -/
def validateGetLocationHistoryInput (input : GetLocationHistoryInput) :
    Except String GetLocationHistoryInput :=
  match input.limit with
  | none => .ok input
  | some n =>
    if 1 ≤ n ∧ n ≤ 1000 then .ok input
    else .error "Invalid input: limit must be between 1 and 1000"

/-- `getLocationHistory` (handlers/get_location_history.ts): filter to the
exact entity, optionally bound `timestamp` inclusively by `start_date` /
`end_date`, ORDER BY timestamp DESC, LIMIT `input.limit ?? 100`; numeric
columns are parsed back to numbers (identity on the stored rationals). -/
def historyConds (input : GetLocationHistoryInput) (p : LocationPointRow) : Bool :=
  decide (p.entity_type = input.entity_type) && decide (p.entity_id = input.entity_id) &&
  (match input.start_date with | none => true | some s => decide (s ≤ p.timestamp)) &&
  (match input.end_date with | none => true | some e => decide (p.timestamp ≤ e))

def getLocationHistory (db : DB) (input : GetLocationHistoryInput) : List LocationPointRow :=
  ((db.locationPoints.filter (historyConds input)).mergeSort
      (fun a b => decide (b.timestamp ≤ a.timestamp))).take (input.limit.getD 100).toNat

/-- The remote procedure: validate the request, then run the handler. -/
def getLocationHistoryChecked (db : DB) (input : GetLocationHistoryInput) :
    Except String (List LocationPointRow) :=
  match validateGetLocationHistoryInput input with
  | .error e => .error e
  | .ok i => .ok (getLocationHistory db i)

/-- C4: every successful `getLocationHistory` result holds only stored
points exactly matching the requested entity and inside the inclusive date
bounds, is sorted by timestamp in non-increasing order, and its length is
at most the requested limit — 100 when omitted, never above 1000. -/
theorem getLocationHistory_sound (db : DB) (input : GetLocationHistoryInput)
    (out : List LocationPointRow)
    (h : getLocationHistoryChecked db input = .ok out) :
    (∀ p ∈ out, p ∈ db.locationPoints ∧ p.entity_type = input.entity_type ∧
      p.entity_id = input.entity_id ∧
      (∀ s, input.start_date = some s → s ≤ p.timestamp) ∧
      (∀ e, input.end_date = some e → p.timestamp ≤ e)) ∧
    out.Pairwise (fun a b => b.timestamp ≤ a.timestamp) ∧
    out.length ≤ (input.limit.getD 100).toNat ∧
    (input.limit.getD 100).toNat ≤ 1000 := by
  have hval : out = getLocationHistory db input ∧
      (input.limit = none ∨ ∃ n, input.limit = some n ∧ 1 ≤ n ∧ n ≤ 1000) := by
    unfold getLocationHistoryChecked validateGetLocationHistoryInput at h
    rcases hl : input.limit with _ | n
    · rw [hl] at h
      simp only [Except.ok.injEq] at h
      exact ⟨h.symm, Or.inl rfl⟩
    · rw [hl] at h
      dsimp only at h
      by_cases hn : 1 ≤ n ∧ n ≤ 1000
      · rw [if_pos hn] at h
        simp only [Except.ok.injEq] at h
        exact ⟨h.symm, Or.inr ⟨n, rfl, hn⟩⟩
      · rw [if_neg hn] at h
        exact absurd h (by simp)
  obtain ⟨hout, hlim⟩ := hval
  subst hout
  unfold getLocationHistory
  refine ⟨?_, ?_, ?_, ?_⟩
  · intro p hp
    have hp1 : p ∈ (db.locationPoints.filter (historyConds input)).mergeSort
        (fun a b => decide (b.timestamp ≤ a.timestamp)) :=
      List.take_subset _ _ hp
    rw [List.mem_mergeSort] at hp1
    have hp2 := List.mem_filter.mp hp1
    refine ⟨hp2.1, ?_⟩
    have hc := hp2.2
    unfold historyConds at hc
    simp only [Bool.and_eq_true, decide_eq_true_eq] at hc
    refine ⟨hc.1.1.1, hc.1.1.2, ?_, ?_⟩
    · intro s hs
      have := hc.1.2
      rw [hs] at this
      simpa using this
    · intro e he
      have := hc.2
      rw [he] at this
      simpa using this
  · have hs := @List.sorted_mergeSort LocationPointRow
      (fun a b : LocationPointRow => decide (b.timestamp ≤ a.timestamp))
      (fun a b c hab hbc => by
        simp only [decide_eq_true_eq] at hab hbc ⊢
        omega)
      (fun a b => by
        simp only [Bool.or_eq_true, decide_eq_true_eq]
        omega)
      (db.locationPoints.filter (historyConds input))
    have hs' : ((db.locationPoints.filter (historyConds input)).mergeSort
        (fun a b : LocationPointRow => decide (b.timestamp ≤ a.timestamp))).Pairwise
        (fun a b => b.timestamp ≤ a.timestamp) := by
      refine hs.imp ?_
      intro a b hab
      simpa using hab
    exact hs'.sublist (List.take_sublist _ _)
  · exact List.length_take_le _ _
  · rcases hlim with hnone | ⟨n, hn, h1, h2⟩
    · rw [hnone]; decide
    · rw [hn]
      simp only [Option.getD_some]
      omega

def demoPoint1 : LocationPointRow :=
  { id := 1, entity_type := EntityType.security_officer, entity_id := 9,
    latitude := 1 / 10, longitude := 2 / 10, altitude := none, accuracy := none,
    heading := none, speed := none, timestamp := 100, created_at := 100 }

def demoPoint2 : LocationPointRow := { demoPoint1 with id := 2, timestamp := 200 }

def locDB : DB := { emptyDB with locationPoints := [demoPoint1, demoPoint2] }

def demoHistoryInput : GetLocationHistoryInput :=
  { entity_type := EntityType.security_officer, entity_id := 9,
    start_date := none, end_date := none, limit := some 1 }

def histInputNoLimit : GetLocationHistoryInput := { demoHistoryInput with limit := none }

def histInputBigLimit : GetLocationHistoryInput := { demoHistoryInput with limit := some 2000 }

def histInputZeroLimit : GetLocationHistoryInput := { demoHistoryInput with limit := some 0 }

/-- Witness for C4 at a concrete store and request. -/
theorem getLocationHistory_sound_witness :
    (getLocationHistory locDB demoHistoryInput).length ≤
      (demoHistoryInput.limit.getD 100).toNat ∧
    (getLocationHistory locDB demoHistoryInput).Pairwise
      (fun a b => b.timestamp ≤ a.timestamp) :=
  ⟨(getLocationHistory_sound locDB demoHistoryInput
      (getLocationHistory locDB demoHistoryInput) rfl).2.2.1,
   (getLocationHistory_sound locDB demoHistoryInput
      (getLocationHistory locDB demoHistoryInput) rfl).2.1⟩

/-- C5 counterexample: a `getLocationHistory` call with limit 2000 (above
1000) or 0 (below 1) does not succeed with the limit clamped — the input
schema rejects it and the call fails with a validation error. -/
theorem limit_not_clamped_cex :
    getLocationHistoryChecked locDB histInputBigLimit =
      .error "Invalid input: limit must be between 1 and 1000" ∧
    getLocationHistoryChecked locDB histInputZeroLimit =
      .error "Invalid input: limit must be between 1 and 1000" := ⟨rfl, rfl⟩

/-- C5 amended: a call whose limit lies outside [1,1000] is rejected by the
input schema with a validation error — it fails rather than being clamped —
while a call that omits limit succeeds with the default 100 applied
(identical to requesting limit 100), and an in-range limit passes through
unchanged. -/
theorem limit_validation (db : DB) (input : GetLocationHistoryInput) :
    (∀ n, input.limit = some n → (n < 1 ∨ 1000 < n) →
      getLocationHistoryChecked db input =
        .error "Invalid input: limit must be between 1 and 1000") ∧
    (input.limit = none →
      getLocationHistoryChecked db input = .ok (getLocationHistory db input) ∧
      getLocationHistory db input =
        getLocationHistory db { input with limit := some 100 }) ∧
    (∀ n, input.limit = some n → 1 ≤ n → n ≤ 1000 →
      getLocationHistoryChecked db input = .ok (getLocationHistory db input)) := by
  refine ⟨?_, ?_, ?_⟩
  · intro n hn hout
    unfold getLocationHistoryChecked validateGetLocationHistoryInput
    rw [hn]
    dsimp only
    rw [if_neg (by omega)]
  · intro hnone
    constructor
    · unfold getLocationHistoryChecked validateGetLocationHistoryInput
      rw [hnone]
    · unfold getLocationHistory
      rw [hnone]
      rfl
  · intro n hn h1 h2
    unfold getLocationHistoryChecked validateGetLocationHistoryInput
    rw [hn]
    dsimp only
    rw [if_pos ⟨h1, h2⟩]

/-- Witness for the amended C5 at concrete requests. -/
theorem limit_validation_witness :
    getLocationHistoryChecked locDB histInputBigLimit =
      .error "Invalid input: limit must be between 1 and 1000" ∧
    getLocationHistoryChecked locDB histInputNoLimit =
      .ok (getLocationHistory locDB histInputNoLimit) ∧
    getLocationHistoryChecked locDB demoHistoryInput =
      .ok (getLocationHistory locDB demoHistoryInput) :=
  ⟨(limit_validation locDB histInputBigLimit).1 2000 rfl (Or.inr (by omega)),
   ((limit_validation locDB histInputNoLimit).2.1 rfl).1,
   (limit_validation locDB demoHistoryInput).2.2 1 rfl (by omega) (by omega)⟩

/-! ## Aggregation Service (handlers/get_dashboard_data.ts) -/

/-- The `DashboardData` payload (schema.ts `dashboardDataSchema`). -/
structure DashboardData where
  active_security_officers : Nat
  active_vehicles : Nat
  total_active_routes : Nat
  officers_on_duty : Nat
  vehicles_in_use : Nat
  recent_location_updates : List LocationPointRow
deriving DecidableEq, Repr

/-- `getDashboardData` (handlers/get_dashboard_data.ts): five independent
counts plus the 10 most recent points with timestamp within the last 24
hours, newest first.  `oneDayAgo` is `now` minus one day; the
`?.count || 0` fallbacks are the identity because a COUNT query always
returns exactly one row.  `vehicles_in_use` is COUNT(DISTINCT vehicle_id)
over assignments inner-joined to active vehicles, with
`status='active' AND unassigned_at IS NULL` on the assignment. -/
def getDashboardData (db : DB) (now : Nat) : DashboardData :=
  let oneDayAgo := now - 86400000
  { active_security_officers :=
      (db.securityOfficers.filter (fun o => decide (o.status = OfficerStatus.active))).length
    officers_on_duty :=
      (db.securityOfficers.filter (fun o => decide (o.status = OfficerStatus.on_duty))).length
    active_vehicles :=
      (db.corporateVehicles.filter (fun v => decide (v.status = VehicleStatus.active))).length
    vehicles_in_use :=
      (((db.vehicleDriverAssignments.filter (fun a =>
          decide (a.status = AssignmentStatus.active) && decide (a.unassigned_at = none) &&
          db.corporateVehicles.any (fun v =>
            decide (v.id = a.vehicle_id) && decide (v.status = VehicleStatus.active)))).map
        (fun a => a.vehicle_id)).dedup).length
    total_active_routes :=
      (db.routes.filter (fun r => decide (r.status = RouteStatus.active))).length
    recent_location_updates :=
      ((db.locationPoints.filter (fun p => decide (oneDayAgo ≤ p.timestamp))).mergeSort
        (fun a b => decide (b.timestamp ≤ a.timestamp))).take 10 }

/-- C9: on an empty store the dashboard reports all-zero counts and an
empty recent-location-updates list. -/
theorem dashboard_empty (now : Nat) :
    getDashboardData emptyDB now =
      { active_security_officers := 0, active_vehicles := 0, total_active_routes := 0,
        officers_on_duty := 0, vehicles_in_use := 0, recent_location_updates := [] } := by
  unfold getDashboardData emptyDB
  simp [List.dedup_nil]

/-! ## Vehicle listing (handlers/get_corporate_vehicles.ts) -/

/-- The rows of the double LEFT JOIN of `getCorporateVehicles` contributed
by one vehicle: vehicles left-joined to their active, not-yet-unassigned
assignment rows, then left-joined to the assignment's driver rows. -/
def vehicleJoinRows (db : DB) (v : VehicleRow) :
    List (VehicleRow × Option AssignmentRow × Option DriverRow) :=
  match db.vehicleDriverAssignments.filter (fun a =>
      decide (a.vehicle_id = v.id) && decide (a.status = AssignmentStatus.active) &&
      decide (a.unassigned_at = none)) with
  | [] => [(v, none, none)]
  | ms => ms.flatMap (fun a =>
      match db.drivers.filter (fun d => decide (d.id = a.driver_id)) with
      | [] => [(v, some a, none)]
      | ds => ds.map (fun d => (v, some a, some d)))

/-- `getCorporateVehicles` (handlers/get_corporate_vehicles.ts): the joined
SELECT, projected back to only the vehicle's own columns. -/
def getCorporateVehicles (db : DB) : List VehicleRow :=
  (db.corporateVehicles.flatMap (fun v => vehicleJoinRows db v)).map (fun r => r.1)

theorem flatMap_map_singleton {α β : Type} (l : List α) (f : α → List β) (g : β → α)
    (h : ∀ v ∈ l, (f v).map g = [v]) : (l.flatMap f).map g = l := by
  induction l with
  | nil => rfl
  | cons a l ih =>
    rw [List.flatMap_cons, List.map_append, h a (by simp),
      ih (fun v hv => h v (by simp [hv]))]
    rfl

theorem length_filter_key_le_one {α : Type} (l : List α) (f : α → Nat) (k : Nat)
    (h : (l.map f).Nodup) : (l.filter (fun x => decide (f x = k))).length ≤ 1 := by
  induction l with
  | nil => simp
  | cons a l ih =>
    simp only [List.map_cons, List.nodup_cons, List.mem_map] at h
    rw [List.filter_cons]
    by_cases hk : f a = k
    · have hnil : l.filter (fun x => decide (f x = k)) = [] := by
        rw [List.filter_eq_nil_iff]
        intro b hb
        simp only [decide_eq_true_eq]
        intro hbk
        exact h.1 ⟨b, hb, by rw [hbk, hk]⟩
      simp [hk, hnil]
    · rw [decide_eq_false hk]
      simp only [Bool.false_eq_true, if_false]
      exact ih h.2

/-- C10: in every state satisfying the store's structural invariants —
driver ids unique (serial primary key) and at most one active assignment
row per vehicle (every such row having `unassigned_at` null is implied by
the join's own `unassigned_at IS NULL` condition) — the double left join of
`getCorporateVehicles` neither duplicates nor drops vehicles: the result is
exactly the stored corporate-vehicles list, vehicle columns only. -/
theorem getCorporateVehicles_one_row_per_vehicle (db : DB)
    (hdr : (db.drivers.map (fun d => d.id)).Nodup)
    (hinv : ∀ w, (activeAssignmentsFor db w).length ≤ 1) :
    getCorporateVehicles db = db.corporateVehicles := by
  unfold getCorporateVehicles
  apply flatMap_map_singleton
  intro v hv
  unfold vehicleJoinRows
  rcases hms : db.vehicleDriverAssignments.filter (fun a =>
      decide (a.vehicle_id = v.id) && decide (a.status = AssignmentStatus.active) &&
      decide (a.unassigned_at = none)) with _ | ⟨a, rest⟩
  · rw [hms]
    rfl
  · have hsub : (db.vehicleDriverAssignments.filter (fun a =>
        decide (a.vehicle_id = v.id) && decide (a.status = AssignmentStatus.active) &&
        decide (a.unassigned_at = none))).length ≤
        (activeAssignmentsFor db v.id).length := by
      apply List.Sublist.length_le
      apply List.monotone_filter_right
      intro b hb
      simp only [Bool.and_eq_true, decide_eq_true_eq] at hb
      simp only [decide_eq_true_eq]
      exact ⟨hb.1.1, hb.1.2⟩
    rw [hms] at hsub
    have hrest : rest = [] := by
      have h1 := le_trans hsub (hinv v.id)
      simp only [List.length_cons] at h1
      have : rest.length = 0 := by omega
      exact List.eq_nil_of_length_eq_zero this
    subst hrest
    rw [hms]
    dsimp only
    rw [List.flatMap_cons, List.flatMap_nil, List.append_nil]
    rcases hds : db.drivers.filter (fun d => decide (d.id = a.driver_id)) with _ | ⟨d, ds2⟩
    · rw [hds]
      rfl
    · have hlen := length_filter_key_le_one db.drivers (fun d => d.id) a.driver_id hdr
      rw [hds] at hlen
      simp only [List.length_cons] at hlen
      have : ds2 = [] := List.eq_nil_of_length_eq_zero (by omega)
      subst this
      rw [hds]
      rfl

/-- Witness for C10 at a concrete store with one vehicle, one driver and
one active assignment. -/
theorem getCorporateVehicles_one_row_per_vehicle_witness :
    getCorporateVehicles assignedDB = assignedDB.corporateVehicles :=
  getCorporateVehicles_one_row_per_vehicle assignedDB (by decide)
    (fun w => by
      have h := List.length_filter_le
        (fun a => decide (a.vehicle_id = w ∧ a.status = AssignmentStatus.active))
        assignedDB.vehicleDriverAssignments
      simpa [assignedDB, demoDB, emptyDB, activeAssignmentsFor] using h)

/-! ## Location recording (src/unnamed/part_000 `recordLocationPoint`) -/

/-- Input schema `createLocationPointInputSchema` (schema.ts). -/
structure CreateLocationPointInput where
  entity_type : EntityType
  entity_id : Nat
  latitude : ℚ
  longitude : ℚ
  altitude : Option ℚ
  accuracy : Option ℚ
  heading : Option ℚ
  speed : Option ℚ
  timestamp : Option Nat
deriving DecidableEq, Repr

/-- The numeric-range checks of `createLocationPointInputSchema`. -/
def validateCreateLocationPointInput (input : CreateLocationPointInput) : Bool :=
  decide (-90 ≤ input.latitude ∧ input.latitude ≤ 90) &&
  decide (-180 ≤ input.longitude ∧ input.longitude ≤ 180) &&
  (match input.heading with | none => true | some h => decide (0 ≤ h ∧ h ≤ 360)) &&
  (match input.speed with | none => true | some sp => decide (0 ≤ sp))

/-- The INSERT of `recordLocationPoint`: timestamp defaults to now,
`created_at` is the insertion time, lat/long go through `toString` into
`numeric(10,8)`/`numeric(11,8)` (rounding at the 8th decimal), the optional
numerics into `numeric(_,2)`; the handler then parses the returned decimals
back to numbers, the identity on the stored rational values (the stored
decimal strings are nonempty, so the truthiness guards only map null to
null). -/
def insertLocationPoint (db : DB) (now newId : Nat) (input : CreateLocationPointInput) :
    DB × LocationPointRow :=
  let stored : LocationPointRow :=
    { id := newId, entity_type := input.entity_type, entity_id := input.entity_id,
      latitude := quantQ 8 input.latitude, longitude := quantQ 8 input.longitude,
      altitude := input.altitude.map (quantQ 2), accuracy := input.accuracy.map (quantQ 2),
      heading := input.heading.map (quantQ 2), speed := input.speed.map (quantQ 2),
      timestamp := input.timestamp.getD now, created_at := now }
  ({ db with locationPoints := db.locationPoints ++ [stored] }, stored)

/-- `recordLocationPoint` (src/unnamed/part_000): a SELECT ... LIMIT 1
existence check against the table implied by `entity_type`, then the
INSERT. -/
def recordLocationPoint (db : DB) (now newId : Nat) (input : CreateLocationPointInput) :
    Except String (DB × LocationPointRow) :=
  match input.entity_type with
  | EntityType.security_officer =>
    if (db.securityOfficers.filter (fun o => decide (o.id = input.entity_id))).take 1 = [] then
      .error ("Security officer with ID " ++ toString input.entity_id ++ " not found")
    else .ok (insertLocationPoint db now newId input)
  | EntityType.corporate_vehicle =>
    if (db.corporateVehicles.filter (fun v => decide (v.id = input.entity_id))).take 1 = [] then
      .error ("Corporate vehicle with ID " ++ toString input.entity_id ++ " not found")
    else .ok (insertLocationPoint db now newId input)

theorem quantQ_close (s : Nat) (x : ℚ) : |quantQ s x - x| ≤ 1 / (2 * 10 ^ s) := by
  unfold quantQ
  have hpow : (0 : ℚ) < 10 ^ s := by positivity
  have h1 : ((round (x * 10 ^ s) : ℤ) : ℚ) / 10 ^ s - x =
      (((round (x * 10 ^ s) : ℤ) : ℚ) - x * 10 ^ s) / 10 ^ s := by
    field_simp
    ring
  rw [h1, abs_div, abs_of_pos hpow, div_le_div_iff₀ hpow (by positivity)]
  have h2 := abs_sub_round (x * (10 : ℚ) ^ s)
  have h3 : |((round (x * 10 ^ s) : ℤ) : ℚ) - x * 10 ^ s| ≤ 1 / 2 := by
    rw [abs_sub_comm]
    exact h2
  nlinarith [hpow, h3]

/-- C8: a successful `recordLocationPoint` on a valid input returns values
equal to the input to better than 6 decimal places for lat/long (the
8-decimal store rounds at 1e-8), returns exactly the stored row (parsing
the stored decimal is the identity — numbers, not encoded strings), and a
subsequent `getLocationHistory` for that entity (with fewer than 100
points previously stored so the default limit does not cut it off) returns
that same row. -/
theorem record_roundtrip (db db' : DB) (now newId : Nat)
    (input : CreateLocationPointInput) (ret : LocationPointRow)
    (hvalid : validateCreateLocationPointInput input = true)
    (h : recordLocationPoint db now newId input = .ok (db', ret))
    (hcount : (db.locationPoints.filter (historyConds
        { entity_type := input.entity_type, entity_id := input.entity_id,
          start_date := none, end_date := none, limit := none })).length < 100) :
    |ret.latitude - input.latitude| < 1 / 1000000 ∧
    |ret.longitude - input.longitude| < 1 / 1000000 ∧
    ret ∈ db'.locationPoints ∧
    ret ∈ getLocationHistory db'
      { entity_type := input.entity_type, entity_id := input.entity_id,
        start_date := none, end_date := none, limit := none } := by
  have hins : insertLocationPoint db now newId input = (db', ret) := by
    unfold recordLocationPoint at h
    split at h
    · split at h
      · exact absurd h (by simp)
      · simpa using h
    · split at h
      · exact absurd h (by simp)
      · simpa using h
  unfold insertLocationPoint at hins
  simp only [Prod.mk.injEq] at hins
  obtain ⟨hdb, hret⟩ := hins
  subst hdb
  subst hret
  refine ⟨?_, ?_, ?_, ?_⟩
  · calc |quantQ 8 input.latitude - input.latitude| ≤ 1 / (2 * 10 ^ 8) := quantQ_close 8 _
      _ < 1 / 1000000 := by norm_num
  · calc |quantQ 8 input.longitude - input.longitude| ≤ 1 / (2 * 10 ^ 8) := quantQ_close 8 _
      _ < 1 / 1000000 := by norm_num
  · exact List.mem_append_right _ (List.mem_singleton_self _)
  · unfold getLocationHistory
    set stored : LocationPointRow :=
      { id := newId, entity_type := input.entity_type, entity_id := input.entity_id,
        latitude := quantQ 8 input.latitude, longitude := quantQ 8 input.longitude,
        altitude := input.altitude.map (quantQ 2), accuracy := input.accuracy.map (quantQ 2),
        heading := input.heading.map (quantQ 2), speed := input.speed.map (quantQ 2),
        timestamp := input.timestamp.getD now, created_at := now } with hstored
    have hcond : historyConds
        { entity_type := input.entity_type, entity_id := input.entity_id,
          start_date := none, end_date := none, limit := none } stored = true := by
      unfold historyConds
      simp
    have hfil : (db.locationPoints ++ [stored]).filter (historyConds
        { entity_type := input.entity_type, entity_id := input.entity_id,
          start_date := none, end_date := none, limit := none }) =
        db.locationPoints.filter (historyConds
          { entity_type := input.entity_type, entity_id := input.entity_id,
            start_date := none, end_date := none, limit := none }) ++ [stored] := by
      rw [List.filter_append]
      simp [hcond]
    have hlen : ((db.locationPoints ++ [stored]).filter (historyConds
        { entity_type := input.entity_type, entity_id := input.entity_id,
          start_date := none, end_date := none, limit := none })).length ≤ 100 := by
      rw [hfil, List.length_append]
      simp only [List.length_singleton]
      omega
    rw [List.take_of_length_le (by rw [List.length_mergeSort]; simpa using hlen)]
    rw [List.mem_mergeSort, hfil]
    exact List.mem_append_right _ (List.mem_singleton_self _)

def demoOfficer : OfficerRow :=
  { id := 9, name := "Ana", badge_number := "B1", phone := none, email := none,
    status := OfficerStatus.on_duty, created_at := 0, updated_at := 0 }

def officerDB : DB := { emptyDB with securityOfficers := [demoOfficer] }

def demoLocInput : CreateLocationPointInput :=
  { entity_type := EntityType.security_officer, entity_id := 9,
    latitude := 123456789 / 10000000, longitude := -45 / 2, altitude := none,
    accuracy := none, heading := none, speed := none, timestamp := some 77 }

def demoStoredPoint : LocationPointRow :=
  { id := 11, entity_type := EntityType.security_officer, entity_id := 9,
    latitude := quantQ 8 (123456789 / 10000000), longitude := quantQ 8 (-45 / 2),
    altitude := none, accuracy := none, heading := none, speed := none,
    timestamp := 77, created_at := 50 }

def officerDBAfter : DB := { officerDB with locationPoints := [demoStoredPoint] }

/-- Witness for C8 at a concrete store and input. -/
theorem record_roundtrip_witness :
    |demoStoredPoint.latitude - demoLocInput.latitude| < 1 / 1000000 ∧
    demoStoredPoint ∈ getLocationHistory officerDBAfter
      { entity_type := EntityType.security_officer, entity_id := 9,
        start_date := none, end_date := none, limit := none } :=
  ⟨(record_roundtrip officerDB officerDBAfter 50 11 demoLocInput demoStoredPoint
      (by norm_num [validateCreateLocationPointInput, demoLocInput]) rfl (by decide)).1,
   (record_roundtrip officerDB officerDBAfter 50 11 demoLocInput demoStoredPoint
      (by norm_num [validateCreateLocationPointInput, demoLocInput]) rfl (by decide)).2.2.2⟩

/-! ## Current locations (src/unnamed/part_002 `getCurrentLocations`) -/

/-- The grouping key `entity_type-entity_id` of `latestLocationMap`
(the two enum prefixes make the string key collision-free, so the pair is
an exact model). -/
def keyOf (p : LocationPointRow) : EntityType × Nat := (p.entity_type, p.entity_id)

/-- The officer branch of `getCurrentLocations`: location points
inner-joined to `security_officers` on `entity_id = officers.id`, WHERE
`entity_type='security_officer' AND status='on_duty'`, selecting the
point's columns, ORDER BY entity_id, timestamp DESC. -/
def officerLocations (db : DB) : List LocationPointRow :=
  (db.locationPoints.flatMap (fun p =>
    (db.securityOfficers.filter (fun o =>
      decide (p.entity_id = o.id) && decide (p.entity_type = EntityType.security_officer) &&
      decide (o.status = OfficerStatus.on_duty))).map (fun _ => p))).mergeSort
    (fun a b => decide (a.entity_id < b.entity_id ∨
      (a.entity_id = b.entity_id ∧ b.timestamp ≤ a.timestamp)))

/-- The vehicle branch of `getCurrentLocations`: points inner-joined to
`corporate_vehicles` on `entity_id = vehicles.id`, WHERE
`entity_type='corporate_vehicle' AND status='active'`, same ordering. -/
def vehicleLocations (db : DB) : List LocationPointRow :=
  (db.locationPoints.flatMap (fun p =>
    (db.corporateVehicles.filter (fun v =>
      decide (p.entity_id = v.id) && decide (p.entity_type = EntityType.corporate_vehicle) &&
      decide (v.status = VehicleStatus.active))).map (fun _ => p))).mergeSort
    (fun a b => decide (a.entity_id < b.entity_id ∨
      (a.entity_id = b.entity_id ∧ b.timestamp ≤ a.timestamp)))

/-- One step of the `latestLocationMap` fold: a JS `Map` keeps insertion
order, `set` on an existing key updates in place, and the handler replaces
the stored point only when the new one is strictly newer. -/
def upsertLatest (m : List ((EntityType × Nat) × LocationPointRow)) (p : LocationPointRow) :
    List ((EntityType × Nat) × LocationPointRow) :=
  match m with
  | [] => [(keyOf p, p)]
  | (k, q) :: rest =>
    if k = keyOf p then
      if q.timestamp < p.timestamp then (k, p) :: rest else (k, q) :: rest
    else (k, q) :: upsertLatest rest p

/-- `getCurrentLocations` (src/unnamed/part_002): both joins concatenated,
folded into the latest-per-key map, values returned in insertion order
(numeric columns parsed back, the identity on the stored rationals). -/
def getCurrentLocations (db : DB) : List LocationPointRow :=
  ((officerLocations db ++ vehicleLocations db).foldl upsertLatest []).map (fun e => e.2)

/-- Every map entry's value carries its own key. -/
def wellKeyed (m : List ((EntityType × Nat) × LocationPointRow)) : Prop :=
  ∀ e ∈ m, keyOf e.2 = e.1

/-- Lookup in the insertion-ordered map. -/
def assocLookup (k : EntityType × Nat)
    (m : List ((EntityType × Nat) × LocationPointRow)) : Option LocationPointRow :=
  match m with
  | [] => none
  | (k', q) :: rest => if k' = k then some q else assocLookup k rest

theorem assocLookup_upsert_same (m : List ((EntityType × Nat) × LocationPointRow))
    (p : LocationPointRow) (k : EntityType × Nat) (hk : keyOf p = k) :
    assocLookup k (upsertLatest m p) =
      some (match assocLookup k m with
        | none => p
        | some q => if q.timestamp < p.timestamp then p else q) := by
  induction m with
  | nil => simp [upsertLatest, assocLookup, hk]
  | cons e rest ih =>
    obtain ⟨k', q⟩ := e
    by_cases hkk : k' = keyOf p
    · subst hk
      simp only [upsertLatest, hkk, if_true]
      by_cases ht : q.timestamp < p.timestamp
      · simp [assocLookup, ht, hkk]
      · simp [assocLookup, ht, hkk]
    · have hkk' : ¬ k' = k := by rw [← hk]; exact hkk
      simp only [upsertLatest, hkk, if_false, assocLookup, hkk', ih]

theorem assocLookup_upsert_other (m : List ((EntityType × Nat) × LocationPointRow))
    (p : LocationPointRow) (k : EntityType × Nat) (hk : ¬ keyOf p = k) :
    assocLookup k (upsertLatest m p) = assocLookup k m := by
  induction m with
  | nil =>
    simp only [upsertLatest, assocLookup]
    rw [if_neg (fun h => hk h)]
  | cons e rest ih =>
    obtain ⟨k', q⟩ := e
    by_cases hkk : k' = keyOf p
    · have hkk' : ¬ k' = k := by rw [hkk]; exact hk
      by_cases ht : q.timestamp < p.timestamp
      · rw [show upsertLatest ((k', q) :: rest) p = (k', p) :: rest from by
          simp [upsertLatest, hkk, ht]]
        simp [assocLookup, hkk']
      · rw [show upsertLatest ((k', q) :: rest) p = (k', q) :: rest from by
          simp [upsertLatest, hkk, ht]]
    · rw [show upsertLatest ((k', q) :: rest) p = (k', q) :: upsertLatest rest p from by
        simp [upsertLatest, hkk]]
      by_cases hk2 : k' = k
      · simp [assocLookup, hk2]
      · simp [assocLookup, hk2, ih]

theorem mem_upsert (m : List ((EntityType × Nat) × LocationPointRow))
    (p : LocationPointRow) (e : (EntityType × Nat) × LocationPointRow)
    (he : e ∈ upsertLatest m p) : e ∈ m ∨ e = (keyOf p, p) := by
  induction m with
  | nil =>
    simp only [upsertLatest] at he
    right
    simpa using he
  | cons f rest ih =>
    obtain ⟨k', q⟩ := f
    by_cases hkk : k' = keyOf p
    · by_cases ht : q.timestamp < p.timestamp
      · rw [show upsertLatest ((k', q) :: rest) p = (k', p) :: rest from by
          simp [upsertLatest, hkk, ht]] at he
        rcases List.mem_cons.mp he with rfl | h
        · right; rw [hkk]
        · left; exact List.mem_cons_of_mem _ h
      · rw [show upsertLatest ((k', q) :: rest) p = (k', q) :: rest from by
          simp [upsertLatest, hkk, ht]] at he
        left
        exact he
    · rw [show upsertLatest ((k', q) :: rest) p = (k', q) :: upsertLatest rest p from by
        simp [upsertLatest, hkk]] at he
      rcases List.mem_cons.mp he with rfl | h
      · left; exact List.mem_cons_self _ _
      · rcases ih h with h1 | h1
        · left; exact List.mem_cons_of_mem _ h1
        · right; exact h1

theorem wellKeyed_upsert (m : List ((EntityType × Nat) × LocationPointRow))
    (p : LocationPointRow) (hm : wellKeyed m) : wellKeyed (upsertLatest m p) := by
  intro e he
  rcases mem_upsert m p e he with h | rfl
  · exact hm e h
  · rfl

theorem assocLookup_mem (k : EntityType × Nat)
    (m : List ((EntityType × Nat) × LocationPointRow)) (q : LocationPointRow)
    (h : assocLookup k m = some q) : (k, q) ∈ m := by
  induction m with
  | nil => cases h
  | cons e rest ih =>
    obtain ⟨k', q'⟩ := e
    by_cases hk : k' = k
    · simp only [assocLookup, hk, if_true, Option.some.injEq] at h
      subst hk
      subst h
      exact List.mem_cons_self _ _
    · simp only [assocLookup, hk, if_false] at h
      exact List.mem_cons_of_mem _ (ih h)

theorem assocLookup_eq_none_iff (k : EntityType × Nat)
    (m : List ((EntityType × Nat) × LocationPointRow)) :
    assocLookup k m = none ↔ ∀ e ∈ m, ¬ e.1 = k := by
  induction m with
  | nil => simp [assocLookup]
  | cons e rest ih =>
    obtain ⟨k', q⟩ := e
    by_cases hk : k' = k
    · simp [assocLookup, hk]
    · simp [assocLookup, hk, ih]

theorem assocLookup_of_mem_nodup (k : EntityType × Nat)
    (m : List ((EntityType × Nat) × LocationPointRow)) (q : LocationPointRow)
    (hm : (m.map (fun e => e.1)).Nodup) (h : (k, q) ∈ m) : assocLookup k m = some q := by
  induction m with
  | nil => cases h
  | cons e rest ih =>
    obtain ⟨k', q'⟩ := e
    simp only [List.map_cons, List.nodup_cons, List.mem_map] at hm
    rcases List.mem_cons.mp h with heq | hmem
    · obtain ⟨hk, hq⟩ := Prod.mk.injEq .. ▸ heq
      simp [assocLookup, hk.symm, hq]
    · have hk : ¬ k' = k := by
        intro hkk
        exact hm.1 ⟨(k, q), hmem, hkk.symm⟩
      simp only [assocLookup, hk, if_false]
      exact ih hm.2 hmem

theorem keys_upsert_of_some (m : List ((EntityType × Nat) × LocationPointRow))
    (p : LocationPointRow) (h : (assocLookup (keyOf p) m).isSome = true) :
    (upsertLatest m p).map (fun e => e.1) = m.map (fun e => e.1) := by
  induction m with
  | nil => simp [assocLookup] at h
  | cons e rest ih =>
    obtain ⟨k', q⟩ := e
    by_cases hk : k' = keyOf p
    · by_cases ht : q.timestamp < p.timestamp
      · rw [show upsertLatest ((k', q) :: rest) p = (k', p) :: rest from by
          simp [upsertLatest, hk, ht]]
        simp
      · rw [show upsertLatest ((k', q) :: rest) p = (k', q) :: rest from by
          simp [upsertLatest, hk, ht]]
    · simp only [assocLookup, hk, if_false] at h
      rw [show upsertLatest ((k', q) :: rest) p = (k', q) :: upsertLatest rest p from by
        simp [upsertLatest, hk]]
      simp only [List.map_cons, ih h]

theorem keys_upsert_of_none (m : List ((EntityType × Nat) × LocationPointRow))
    (p : LocationPointRow) (h : assocLookup (keyOf p) m = none) :
    (upsertLatest m p).map (fun e => e.1) = m.map (fun e => e.1) ++ [keyOf p] := by
  induction m with
  | nil => simp [upsertLatest]
  | cons e rest ih =>
    obtain ⟨k', q⟩ := e
    by_cases hk : k' = keyOf p
    · simp [assocLookup, hk] at h
    · simp only [assocLookup, hk, if_false] at h
      rw [show upsertLatest ((k', q) :: rest) p = (k', q) :: upsertLatest rest p from by
        simp [upsertLatest, hk]]
      simp [ih h]

theorem keys_nodup_upsert (m : List ((EntityType × Nat) × LocationPointRow))
    (p : LocationPointRow) (h : (m.map (fun e => e.1)).Nodup) :
    ((upsertLatest m p).map (fun e => e.1)).Nodup := by
  rcases hl : assocLookup (keyOf p) m with _ | q
  · rw [keys_upsert_of_none m p hl]
    rw [List.nodup_append]
    refine ⟨h, List.nodup_singleton _, ?_⟩
    intro k hk hk2
    simp only [List.mem_singleton] at hk2
    subst hk2
    rw [assocLookup_eq_none_iff] at hl
    obtain ⟨e, he, hke⟩ := List.mem_map.mp hk
    exact hl e he hke
  · rw [keys_upsert_of_some m p (by rw [hl]; rfl)]
    exact h

theorem foldl_wellKeyed_nodup (l : List LocationPointRow)
    (m : List ((EntityType × Nat) × LocationPointRow))
    (h1 : wellKeyed m) (h2 : (m.map (fun e => e.1)).Nodup) :
    wellKeyed (l.foldl upsertLatest m) ∧
    ((l.foldl upsertLatest m).map (fun e => e.1)).Nodup := by
  induction l generalizing m with
  | nil => exact ⟨h1, h2⟩
  | cons p l ih =>
    exact ih (upsertLatest m p) (wellKeyed_upsert m p h1) (keys_nodup_upsert m p h2)

theorem assocLookup_foldl_none (l : List LocationPointRow)
    (m : List ((EntityType × Nat) × LocationPointRow)) (k : EntityType × Nat) :
    assocLookup k (l.foldl upsertLatest m) = none ↔
      assocLookup k m = none ∧ ∀ p ∈ l, ¬ keyOf p = k := by
  induction l generalizing m with
  | nil => simp
  | cons p l ih =>
    rw [List.foldl_cons, ih]
    by_cases hk : keyOf p = k
    · constructor
      · rintro ⟨h1, -⟩
        rw [assocLookup_upsert_same m p k hk] at h1
        exact absurd h1 (by simp)
      · rintro ⟨-, h2⟩
        exact absurd hk (h2 p (List.mem_cons_self _ _))
    · rw [assocLookup_upsert_other m p k hk]
      constructor
      · rintro ⟨h1, h2⟩
        refine ⟨h1, fun q hq => ?_⟩
        rcases List.mem_cons.mp hq with rfl | hq'
        · exact hk
        · exact h2 q hq'
      · rintro ⟨h1, h2⟩
        exact ⟨h1, fun q hq => h2 q (List.mem_cons_of_mem _ hq)⟩

theorem assocLookup_upsert_same_spec (m : List ((EntityType × Nat) × LocationPointRow))
    (p : LocationPointRow) (k : EntityType × Nat) (hk : keyOf p = k) :
    ∃ q1, assocLookup k (upsertLatest m p) = some q1 ∧ p.timestamp ≤ q1.timestamp ∧
      (q1 = p ∨ assocLookup k m = some q1) ∧
      (∀ q0, assocLookup k m = some q0 → q0.timestamp ≤ q1.timestamp) := by
  have h := assocLookup_upsert_same m p k hk
  split at h
  · rename_i hl
    refine ⟨p, h, le_refl _, Or.inl rfl, fun q0 h0 => ?_⟩
    rw [hl] at h0
    exact Option.noConfusion h0
  · rename_i q0 hl
    by_cases ht : q0.timestamp < p.timestamp
    · rw [if_pos ht] at h
      refine ⟨p, h, le_refl _, Or.inl rfl, fun q2 h2 => ?_⟩
      rw [hl] at h2
      injection h2 with h2
      subst h2
      omega
    · rw [if_neg ht] at h
      refine ⟨q0, h, by omega, Or.inr hl, fun q2 h2 => ?_⟩
      rw [hl] at h2
      injection h2 with h2
      subst h2
      exact le_refl _

theorem assocLookup_foldl_some (l : List LocationPointRow)
    (m : List ((EntityType × Nat) × LocationPointRow)) (k : EntityType × Nat)
    (q : LocationPointRow)
    (h : assocLookup k (l.foldl upsertLatest m) = some q) :
    ((k, q) ∈ m ∨ (q ∈ l ∧ keyOf q = k)) ∧
    (∀ p ∈ l, keyOf p = k → p.timestamp ≤ q.timestamp) ∧
    (∀ q0, assocLookup k m = some q0 → q0.timestamp ≤ q.timestamp) := by
  induction l generalizing m with
  | nil =>
    simp only [List.foldl_nil] at h
    refine ⟨Or.inl (assocLookup_mem k m q h), by simp, fun q0 h0 => ?_⟩
    rw [h] at h0
    injection h0 with h0
    rw [h0]
  | cons p l ih =>
    rw [List.foldl_cons] at h
    obtain ⟨hmem, hmax, hm0⟩ := ih (upsertLatest m p) h
    by_cases hk : keyOf p = k
    · obtain ⟨q1, hq1eq, hq1p, hq1src, hq1max⟩ := assocLookup_upsert_same_spec m p k hk
      have hq1le : q1.timestamp ≤ q.timestamp := hm0 q1 hq1eq
      refine ⟨?_, ?_, ?_⟩
      · rcases hmem with hmem | hmem
        · rcases mem_upsert m p _ hmem with h1 | h1
          · exact Or.inl h1
          · have hq : q = p := congrArg Prod.snd h1
            subst hq
            exact Or.inr ⟨List.mem_cons_self _ _, hk⟩
        · exact Or.inr ⟨List.mem_cons_of_mem _ hmem.1, hmem.2⟩
      · intro r hr hkr
        rcases List.mem_cons.mp hr with rfl | hr'
        · omega
        · exact hmax r hr' hkr
      · intro q0 h0
        have := hq1max q0 h0
        omega
    · refine ⟨?_, ?_, ?_⟩
      · rcases hmem with hmem | hmem
        · rcases mem_upsert m p _ hmem with h1 | h1
          · exact Or.inl h1
          · have hkp : k = keyOf p := congrArg Prod.fst h1
            exact absurd hkp.symm hk
        · exact Or.inr ⟨List.mem_cons_of_mem _ hmem.1, hmem.2⟩
      · intro r hr hkr
        rcases List.mem_cons.mp hr with rfl | hr'
        · exact absurd hkr hk
        · exact hmax r hr' hkr
      · intro q0 h0
        apply hm0
        rw [assocLookup_upsert_other m p k hk]
        exact h0

theorem filter_map_values (m : List ((EntityType × Nat) × LocationPointRow))
    (k : EntityType × Nat) (hm : wellKeyed m) :
    (m.map (fun e => e.2)).filter (fun p => decide (keyOf p = k)) =
      (m.filter (fun e => decide (e.1 = k))).map (fun e => e.2) := by
  induction m with
  | nil => rfl
  | cons e rest ih =>
    have hke : keyOf e.2 = e.1 := hm e (List.mem_cons_self _ _)
    have ih' := ih (fun f hf => hm f (List.mem_cons_of_mem _ hf))
    simp only [List.map_cons, List.filter_cons, hke]
    by_cases hk : e.1 = k
    · simp only [hk, decide_true_eq_true]
      simp [ih']
    · rw [decide_eq_false hk]
      simp only [Bool.false_eq_true, if_false, ih']

theorem filter_key_of_lookup_none (m : List ((EntityType × Nat) × LocationPointRow))
    (k : EntityType × Nat) (h : assocLookup k m = none) :
    m.filter (fun e => decide (e.1 = k)) = [] := by
  rw [List.filter_eq_nil_iff]
  intro e he
  simp only [decide_eq_true_eq]
  exact (assocLookup_eq_none_iff k m).mp h e he

theorem filter_key_of_lookup_some (m : List ((EntityType × Nat) × LocationPointRow))
    (k : EntityType × Nat) (q : LocationPointRow)
    (hnd : (m.map (fun e => e.1)).Nodup) (h : assocLookup k m = some q) :
    m.filter (fun e => decide (e.1 = k)) = [(k, q)] := by
  induction m with
  | nil => cases h
  | cons e rest ih =>
    obtain ⟨k', q'⟩ := e
    simp only [List.map_cons, List.nodup_cons, List.mem_map] at hnd
    by_cases hk : k' = k
    · simp only [assocLookup, hk, if_true, Option.some.injEq] at h
      subst hk
      subst h
      have hnil : rest.filter (fun e => decide (e.1 = k')) = [] := by
        rw [List.filter_eq_nil_iff]
        intro f hf
        simp only [decide_eq_true_eq]
        exact fun hfk => hnd.1 ⟨f, hf, hfk⟩
      simp [List.filter_cons, hnil]
    · simp only [assocLookup, hk, if_false] at h
      rw [List.filter_cons, decide_eq_false hk]
      simp only [Bool.false_eq_true, if_false]
      exact ih hnd.2 h

theorem mem_officerLocations (db : DB) (p : LocationPointRow) :
    p ∈ officerLocations db ↔
      p ∈ db.locationPoints ∧ p.entity_type = EntityType.security_officer ∧
      ∃ o ∈ db.securityOfficers, p.entity_id = o.id ∧ o.status = OfficerStatus.on_duty := by
  unfold officerLocations
  rw [List.mem_mergeSort, List.mem_flatMap]
  constructor
  · rintro ⟨q, hq, hpq⟩
    obtain ⟨o, ho, rfl⟩ := List.mem_map.mp hpq
    have hof := List.mem_filter.mp ho
    simp only [Bool.and_eq_true, decide_eq_true_eq] at hof
    exact ⟨hq, hof.2.1.2, o, hof.1, hof.2.1.1, hof.2.2⟩
  · rintro ⟨hp, hty, o, ho, hid, hst⟩
    exact ⟨p, hp, List.mem_map.mpr ⟨o, List.mem_filter.mpr ⟨ho, by
      simp [hid, hty, hst]⟩, rfl⟩⟩

theorem mem_vehicleLocations (db : DB) (p : LocationPointRow) :
    p ∈ vehicleLocations db ↔
      p ∈ db.locationPoints ∧ p.entity_type = EntityType.corporate_vehicle ∧
      ∃ v ∈ db.corporateVehicles, p.entity_id = v.id ∧ v.status = VehicleStatus.active := by
  unfold vehicleLocations
  rw [List.mem_mergeSort, List.mem_flatMap]
  constructor
  · rintro ⟨q, hq, hpq⟩
    obtain ⟨v, hv, rfl⟩ := List.mem_map.mp hpq
    have hvf := List.mem_filter.mp hv
    simp only [Bool.and_eq_true, decide_eq_true_eq] at hvf
    exact ⟨hq, hvf.2.1.2, v, hvf.1, hvf.2.1.1, hvf.2.2⟩
  · rintro ⟨hp, hty, v, hv, hid, hst⟩
    exact ⟨p, hp, List.mem_map.mpr ⟨v, List.mem_filter.mpr ⟨hv, by
      simp [hid, hty, hst]⟩, rfl⟩⟩

/-- All stored points tagged with one entity's `(entity_type, entity_id)`. -/
def pointsFor (db : DB) (t : EntityType) (i : Nat) : List LocationPointRow :=
  db.locationPoints.filter (fun p => decide (p.entity_type = t ∧ p.entity_id = i))

theorem mem_currentCombined (db : DB) (q : LocationPointRow) :
    q ∈ officerLocations db ++ vehicleLocations db ↔
      q ∈ db.locationPoints ∧
      ((q.entity_type = EntityType.security_officer ∧
         ∃ o ∈ db.securityOfficers, q.entity_id = o.id ∧ o.status = OfficerStatus.on_duty) ∨
       (q.entity_type = EntityType.corporate_vehicle ∧
         ∃ v ∈ db.corporateVehicles, q.entity_id = v.id ∧ v.status = VehicleStatus.active)) := by
  rw [List.mem_append, mem_officerLocations, mem_vehicleLocations]
  constructor
  · rintro (⟨h1, h2, h3⟩ | ⟨h1, h2, h3⟩)
    exacts [⟨h1, Or.inl ⟨h2, h3⟩⟩, ⟨h1, Or.inr ⟨h2, h3⟩⟩]
  · rintro ⟨h1, (⟨h2, h3⟩ | ⟨h2, h3⟩)⟩
    exacts [Or.inl ⟨h1, h2, h3⟩, Or.inr ⟨h1, h2, h3⟩]

theorem getCurrentLocations_mem_lookup (db : DB) (p : LocationPointRow)
    (hp : p ∈ getCurrentLocations db) :
    assocLookup (keyOf p)
      ((officerLocations db ++ vehicleLocations db).foldl upsertLatest []) = some p := by
  unfold getCurrentLocations at hp
  obtain ⟨e, he, hep⟩ := List.mem_map.mp hp
  obtain ⟨hwk, hnd⟩ := foldl_wellKeyed_nodup (officerLocations db ++ vehicleLocations db) []
    (fun e h => absurd h (List.not_mem_nil e)) (by simp)
  have hke : e.1 = keyOf p := by rw [← hep]; exact (hwk e he).symm
  have heq : (keyOf p, p) = e := by rw [← hke, ← hep]
  exact assocLookup_of_mem_nodup _ _ _ hnd (by rw [heq]; exact he)

theorem currentFilter_lookup (db : DB) (t : EntityType) (i : Nat) :
    (getCurrentLocations db).filter
        (fun p => decide (p.entity_type = t ∧ p.entity_id = i)) =
      (((officerLocations db ++ vehicleLocations db).foldl upsertLatest []).filter
        (fun e => decide (e.1 = (t, i)))).map (fun e => e.2) := by
  unfold getCurrentLocations
  have hpred : (fun p : LocationPointRow => decide (p.entity_type = t ∧ p.entity_id = i)) =
      (fun p => decide (keyOf p = (t, i))) := by
    funext p
    apply decide_eq_decide.mpr
    constructor
    · rintro ⟨h1, h2⟩
      simp [keyOf, h1, h2]
    · intro h
      exact ⟨congrArg Prod.fst h, congrArg Prod.snd h⟩
  rw [hpred]
  exact filter_map_values _ _ (foldl_wellKeyed_nodup _ []
    (fun e h => absurd h (List.not_mem_nil e)) (by simp)).1

/-- C2: `getCurrentLocations` returns, for each security officer with
status on_duty and each corporate vehicle with status active having at
least one recorded point, exactly one point — a stored point of that
entity carrying the maximum timestamp among the entity's points — every
returned point belongs to an on-duty officer or an active vehicle (never
an entity of another status), and entities with zero recorded points are
absent from the result. -/
theorem getCurrentLocations_latest (db : DB) :
    (∀ p ∈ getCurrentLocations db,
      p ∈ db.locationPoints ∧
      (p.entity_type = EntityType.security_officer →
        ∃ o ∈ db.securityOfficers, p.entity_id = o.id ∧ o.status = OfficerStatus.on_duty) ∧
      (p.entity_type = EntityType.corporate_vehicle →
        ∃ v ∈ db.corporateVehicles, p.entity_id = v.id ∧ v.status = VehicleStatus.active) ∧
      (∀ q ∈ pointsFor db p.entity_type p.entity_id, q.timestamp ≤ p.timestamp)) ∧
    (∀ o ∈ db.securityOfficers, o.status = OfficerStatus.on_duty →
      pointsFor db EntityType.security_officer o.id ≠ [] →
      ∃ p, (getCurrentLocations db).filter (fun r =>
          decide (r.entity_type = EntityType.security_officer ∧ r.entity_id = o.id)) = [p] ∧
        p ∈ pointsFor db EntityType.security_officer o.id ∧
        ∀ q ∈ pointsFor db EntityType.security_officer o.id, q.timestamp ≤ p.timestamp) ∧
    (∀ v ∈ db.corporateVehicles, v.status = VehicleStatus.active →
      pointsFor db EntityType.corporate_vehicle v.id ≠ [] →
      ∃ p, (getCurrentLocations db).filter (fun r =>
          decide (r.entity_type = EntityType.corporate_vehicle ∧ r.entity_id = v.id)) = [p] ∧
        p ∈ pointsFor db EntityType.corporate_vehicle v.id ∧
        ∀ q ∈ pointsFor db EntityType.corporate_vehicle v.id, q.timestamp ≤ p.timestamp) ∧
    (∀ t i, pointsFor db t i = [] →
      (getCurrentLocations db).filter (fun r =>
        decide (r.entity_type = t ∧ r.entity_id = i)) = []) := by
  obtain ⟨hwk, hnd⟩ := foldl_wellKeyed_nodup (officerLocations db ++ vehicleLocations db) []
    (fun e h => absurd h (List.not_mem_nil e)) (by simp)
  have hcombKey : ∀ (q : LocationPointRow),
      q ∈ db.locationPoints →
      ((q.entity_type = EntityType.security_officer ∧
        ∃ o ∈ db.securityOfficers, q.entity_id = o.id ∧ o.status = OfficerStatus.on_duty) ∨
       (q.entity_type = EntityType.corporate_vehicle ∧
        ∃ v ∈ db.corporateVehicles, q.entity_id = v.id ∧ v.status = VehicleStatus.active)) →
      q ∈ officerLocations db ++ vehicleLocations db :=
    fun q h1 h2 => (mem_currentCombined db q).mpr ⟨h1, h2⟩
  have hpart1 : ∀ p ∈ getCurrentLocations db,
      p ∈ db.locationPoints ∧
      (p.entity_type = EntityType.security_officer →
        ∃ o ∈ db.securityOfficers, p.entity_id = o.id ∧ o.status = OfficerStatus.on_duty) ∧
      (p.entity_type = EntityType.corporate_vehicle →
        ∃ v ∈ db.corporateVehicles, p.entity_id = v.id ∧ v.status = VehicleStatus.active) ∧
      (∀ q ∈ pointsFor db p.entity_type p.entity_id, q.timestamp ≤ p.timestamp) := by
    intro p hp
    have hlp := getCurrentLocations_mem_lookup db p hp
    obtain ⟨hmem, hmax, -⟩ := assocLookup_foldl_some _ [] _ p hlp
    rcases hmem with hmem | ⟨hpc, -⟩
    · exact absurd hmem (List.not_mem_nil _)
    rw [mem_currentCombined] at hpc
    obtain ⟨hstored, hdisj⟩ := hpc
    refine ⟨hstored, ?_, ?_, ?_⟩
    · intro hty
      rcases hdisj with ⟨-, h3⟩ | ⟨h2, -⟩
      · exact h3
      · rw [hty] at h2
        exact absurd h2 (by simp)
    · intro hty
      rcases hdisj with ⟨h2, -⟩ | ⟨-, h3⟩
      · rw [hty] at h2
        exact absurd h2 (by simp)
      · exact h3
    · intro q hq
      have hq' := List.mem_filter.mp hq
      simp only [decide_eq_true_eq] at hq'
      have hqcomb : q ∈ officerLocations db ++ vehicleLocations db := by
        apply hcombKey q hq'.1
        rcases hdisj with ⟨h2, o, ho, hid, hst⟩ | ⟨h2, v, hv, hid, hst⟩
        · exact Or.inl ⟨by rw [hq'.2.1, h2], o, ho, by rw [hq'.2.2]; exact hid, hst⟩
        · exact Or.inr ⟨by rw [hq'.2.1, h2], v, hv, by rw [hq'.2.2]; exact hid, hst⟩
      exact hmax q hqcomb (by simp [keyOf, hq'.2.1, hq'.2.2])
  have hkeyed : ∀ (t : EntityType) (i : Nat),
      (∀ q ∈ pointsFor db t i, q ∈ officerLocations db ++ vehicleLocations db) →
      pointsFor db t i ≠ [] →
      ∃ p, (getCurrentLocations db).filter (fun r =>
          decide (r.entity_type = t ∧ r.entity_id = i)) = [p] ∧
        p ∈ pointsFor db t i ∧
        ∀ q ∈ pointsFor db t i, q.timestamp ≤ p.timestamp := by
    intro t i hall hne
    obtain ⟨q0, hq0⟩ := List.exists_mem_of_ne_nil _ hne
    have hq0' := List.mem_filter.mp hq0
    simp only [decide_eq_true_eq] at hq0'
    rcases hl : assocLookup (t, i)
        ((officerLocations db ++ vehicleLocations db).foldl upsertLatest []) with _ | p
    · exfalso
      rw [assocLookup_foldl_none] at hl
      exact hl.2 q0 (hall q0 hq0) (by simp [keyOf, hq0'.2.1, hq0'.2.2])
    · obtain ⟨hmem, hmax, -⟩ := assocLookup_foldl_some _ [] _ p hl
      rcases hmem with hmem | ⟨hpc, hkp⟩
      · exact absurd hmem (List.not_mem_nil _)
      have hpt : p.entity_type = t := congrArg Prod.fst hkp
      have hpi : p.entity_id = i := congrArg Prod.snd hkp
      refine ⟨p, ?_, ?_, ?_⟩
      · rw [currentFilter_lookup, filter_key_of_lookup_some _ _ _ hnd hl]
        rfl
      · rw [mem_currentCombined] at hpc
        exact List.mem_filter.mpr ⟨hpc.1, by simp [hpt, hpi]⟩
      · intro q hq
        have hq' := List.mem_filter.mp hq
        simp only [decide_eq_true_eq] at hq'
        exact hmax q (hall q hq) (by simp [keyOf, hq'.2.1, hq'.2.2])
  refine ⟨hpart1, ?_, ?_, ?_⟩
  · intro o ho hst hne
    apply hkeyed _ _ ?_ hne
    intro q hq
    have hq' := List.mem_filter.mp hq
    simp only [decide_eq_true_eq] at hq'
    exact hcombKey q hq'.1 (Or.inl ⟨hq'.2.1, o, ho, hq'.2.2, hst⟩)
  · intro v hv hst hne
    apply hkeyed _ _ ?_ hne
    intro q hq
    have hq' := List.mem_filter.mp hq
    simp only [decide_eq_true_eq] at hq'
    exact hcombKey q hq'.1 (Or.inr ⟨hq'.2.1, v, hv, hq'.2.2, hst⟩)
  · intro t i hnil
    rw [List.filter_eq_nil_iff]
    intro p hp hcond
    simp only [decide_eq_true_eq] at hcond
    have h1 := (hpart1 p hp).1
    have hmem : p ∈ pointsFor db t i :=
      List.mem_filter.mpr ⟨h1, by simp [hcond.1, hcond.2]⟩
    rw [hnil] at hmem
    exact absurd hmem (List.not_mem_nil _)

def currentDB : DB :=
  { emptyDB with securityOfficers := [demoOfficer],
                 locationPoints := [demoPoint1, demoPoint2] }

/-- Witness for C2: one on-duty officer with two recorded points gets
exactly one (latest) point in the result. -/
theorem getCurrentLocations_latest_witness :
    ∃ p, (getCurrentLocations currentDB).filter (fun r =>
        decide (r.entity_type = EntityType.security_officer ∧ r.entity_id = 9)) = [p] ∧
      p ∈ pointsFor currentDB EntityType.security_officer 9 ∧
      ∀ q ∈ pointsFor currentDB EntityType.security_officer 9,
        q.timestamp ≤ p.timestamp :=
  (getCurrentLocations_latest currentDB).2.1 demoOfficer (by decide) rfl
    (by
      intro h
      have : demoPoint1 ∈ pointsFor currentDB EntityType.security_officer demoOfficer.id := by
        apply List.mem_filter.mpr
        refine ⟨by simp [currentDB, emptyDB], ?_⟩
        simp [demoPoint1, demoOfficer]
      rw [h] at this
      exact absurd this (List.not_mem_nil _))

end AssetTracker
